import Mathlib

/-!
Verification development for the `myna` repository (Go).

Part A embeds `src/reader.go` (package `main`): the low-level card reader with
`Tx`, `ReadBinary` and `WaitForCard`.  Part B embeds `src/libmyna/api.go`
(package `libmyna`): the high-level workflows.  The libmyna reader object that
`api.go` calls into (`NewReader`, `Connect`, `Verify`, `SelectEF`, ... ) is not
part of the given sources; its observable behaviour is supplied through an
explicit environment of collaborator outcomes, and the few pieces of repository
logic that live in that missing file are modelled from the spec (each such
definition says so in its doc comment).

Go machine integers are modelled as `Nat` with explicit `% 2 ^ w` where the Go
code can overflow; Go `nil` results are modelled as `none` / `[]`; Go runtime
panics are modelled by an explicit `panicked` constructor.
-/

/-- APDU response as seen by `Reader.Tx` in `src/reader.go`: two status bytes
and the data bytes preceding them. -/
structure Resp where
  sw1 : Nat
  sw2 : Nat
  data : List Nat

/-- READ BINARY command as assembled by `Reader.ReadBinary` in
`src/reader.go:157`: the apdu string `"00 B0 p1 p2 lc"`. -/
structure Apdu where
  cla : Nat
  ins : Nat
  p1 : Nat
  p2 : Nat
  lc : Nat
deriving DecidableEq

/-- Outcome of a `ReadBinary` run: the READ BINARY commands issued, and the
returned byte slice (`none` models the Go `nil` returned on a failed page). -/
structure ReadResult where
  cmds : List Apdu
  res : Option (List Nat)
deriving DecidableEq

/-- Length byte chosen by `ReadBinary` for offset `pos`, from
`src/reader.go:152-156`: 0 when more than 0xFF bytes remain, otherwise the
remaining count (the Go `uint8` cast is exact because the count is at most 0xFF). -/
def lByte (size pos : Nat) : Nat := if 0xFF < size - pos then 0 else size - pos

/-- Number of bytes a READ BINARY with length byte `l` requests: `l = 0` means
256 per the ISO 7816 convention. -/
def reqLen (l : Nat) : Nat := if l = 0 then 256 else l

/-- The command `ReadBinary` emits at offset `pos`, from `src/reader.go:157-158`:
`fmt.Sprintf("00 B0 %02X %02X %02X", pos >> 8 & 0xFF, pos & 0xFF, l)`. -/
def encodeCmd (size pos : Nat) : Apdu :=
  ⟨0x00, 0xB0, pos >>> 8 &&& 0xFF, pos &&& 0xFF, lByte size pos⟩

/-- Loop body of `Reader.ReadBinary` (`src/reader.go:144-167`).  `tx` maps the
offset and length byte of a READ BINARY command to the card's response (the
transport is deterministic in the transmitted apdu).  `pos` is the Go `uint16`
running offset, `acc` the accumulated data, `cmds` the commands issued so far.
The Go loop has no fuel parameter: `fuel` bounds the number of iterations
modelled, and `none` means the loop was still running after `fuel` iterations. -/
def readBinaryLoop (tx : Nat → Nat → Resp) (size : Nat) :
    Nat → Nat → List Nat → List Apdu → Option ReadResult
  | 0, _, _, _ => none
  | fuel+1, pos, acc, cmds =>
    if pos < size then
      let cmd := encodeCmd size pos
      let r := tx pos (lByte size pos)
      if r.sw1 ≠ 0x90 ∨ r.sw2 ≠ 0x00 then some ⟨cmds ++ [cmd], none⟩
      else readBinaryLoop tx size fuel ((pos + r.data.length) % 65536) (acc ++ r.data) (cmds ++ [cmd])
    else some ⟨cmds, some acc⟩

/-- `Reader.ReadBinary(size)` from `src/reader.go:144`, instrumented with the
list of issued commands. -/
def ReadBinary (tx : Nat → Nat → Resp) (size fuel : Nat) : Option ReadResult :=
  readBinaryLoop tx size fuel 0 [] []

/-- Offset encoded big-endian in the two parameter bytes of a command. -/
def decodePos (c : Apdu) : Nat := c.p1 * 256 + c.p2

/-- Transport in which every READ BINARY succeeds and returns exactly the
requested number of bytes (256 bytes for length byte 0). -/
def exactTx : Nat → Nat → Resp := fun _ l => ⟨0x90, 0x00, List.replicate (reqLen l) 0⟩

/-- Transport in which every READ BINARY reports success 0x9000 but carries
zero data bytes. -/
def zeroDataTx : Nat → Nat → Resp := fun _ _ => ⟨0x90, 0x00, []⟩

/-- Transport in which every READ BINARY fails with status 0x6A82. -/
def failTx : Nat → Nat → Resp := fun _ _ => ⟨0x6A, 0x82, []⟩

/-- The proposition that the `ReadBinary` paging loop never finishes, however
many iterations it is allowed. -/
def loopsForever (tx : Nat → Nat → Resp) (size : Nat) : Prop :=
  ∀ fuel, ReadBinary tx size fuel = none

lemma reqLen_lByte (size pos : Nat) (h : pos < size) :
    1 ≤ reqLen (lByte size pos) ∧ pos + reqLen (lByte size pos) ≤ size := by
  unfold reqLen lByte
  split_ifs <;> omega

lemma reqLen_lByte_cases (size pos : Nat) (h : pos < size) :
    (0xFF < size - pos ∧ reqLen (lByte size pos) = 256) ∨
    (size - pos ≤ 0xFF ∧ reqLen (lByte size pos) = size - pos) := by
  by_cases h2 : 0xFF < size - pos
  · left
    refine ⟨h2, ?_⟩
    simp [lByte, reqLen, h2]
  · right
    refine ⟨by omega, ?_⟩
    have h3 : size - pos ≠ 0 := by omega
    simp [lByte, reqLen, h2, h3]

/-- The sequence of commands the `ReadBinary` loop issues from offset `pos`
when every response returns exactly the requested bytes. -/
def planCmds (size pos : Nat) : List Apdu :=
  if h : pos < size then
    encodeCmd size pos :: planCmds size (pos + reqLen (lByte size pos))
  else []
termination_by size - pos
decreasing_by
  have := reqLen_lByte size pos h
  omega

lemma planCmds_pos (size pos : Nat) (h : pos < size) :
    planCmds size pos = encodeCmd size pos :: planCmds size (pos + reqLen (lByte size pos)) := by
  rw [planCmds]
  exact dif_pos h

lemma planCmds_neg (size pos : Nat) (h : ¬ pos < size) : planCmds size pos = [] := by
  rw [planCmds]
  exact dif_neg h

lemma and_255_eq_mod (n : Nat) : n &&& 255 = n % 256 := by
  have h : (255 : Nat) = 2 ^ 8 - 1 := by norm_num
  rw [h, Nat.and_pow_two_sub_one_eq_mod]

lemma shiftRight8_and_255 (n : Nat) (h : n < 65536) : n >>> 8 &&& 255 = n / 256 := by
  rw [and_255_eq_mod, Nat.shiftRight_eq_div_pow]
  norm_num
  omega

lemma decodePos_encodeCmd (size pos : Nat) (h : pos < 65536) :
    decodePos (encodeCmd size pos) = pos := by
  simp only [decodePos, encodeCmd]
  rw [shiftRight8_and_255 pos h, and_255_eq_mod]
  omega

lemma readBinaryLoop_step_fail (tx : Nat → Nat → Resp) (size fuel pos : Nat)
    (acc : List Nat) (cmds : List Apdu) (hpos : pos < size)
    (hfail : (tx pos (lByte size pos)).sw1 ≠ 0x90 ∨ (tx pos (lByte size pos)).sw2 ≠ 0x00) :
    readBinaryLoop tx size (fuel+1) pos acc cmds = some ⟨cmds ++ [encodeCmd size pos], none⟩ := by
  simp only [readBinaryLoop, if_pos hpos]
  split
  · rfl
  · rename_i hcond
    exact absurd hfail hcond

lemma readBinaryLoop_step_success (tx : Nat → Nat → Resp) (size fuel pos : Nat)
    (acc : List Nat) (cmds : List Apdu) (hpos : pos < size)
    (hsw1 : (tx pos (lByte size pos)).sw1 = 0x90) (hsw2 : (tx pos (lByte size pos)).sw2 = 0x00) :
    readBinaryLoop tx size (fuel+1) pos acc cmds
      = readBinaryLoop tx size fuel ((pos + (tx pos (lByte size pos)).data.length) % 65536)
          (acc ++ (tx pos (lByte size pos)).data) (cmds ++ [encodeCmd size pos]) := by
  simp only [readBinaryLoop, if_pos hpos]
  split
  · rename_i hcond
    rcases hcond with h | h
    · exact absurd hsw1 h
    · exact absurd hsw2 h
  · rfl

lemma readBinaryLoop_exact (size : Nat) (hs : size < 65536) :
    ∀ n pos acc cmds, pos ≤ size → size - pos ≤ n →
      readBinaryLoop exactTx size (n+1) pos acc cmds
        = some ⟨cmds ++ planCmds size pos, some (acc ++ List.replicate (size - pos) 0)⟩ := by
  intro n
  induction n with
  | zero =>
    intro pos acc cmds hps hn
    have hpos : ¬ pos < size := by omega
    have hz : size - pos = 0 := by omega
    simp [readBinaryLoop, hpos, planCmds_neg size pos hpos, hz]
  | succ m ih =>
    intro pos acc cmds hps hn
    by_cases hpos : pos < size
    · obtain ⟨h1, h2⟩ := reqLen_lByte size pos hpos
      rw [readBinaryLoop_step_success exactTx size (m+1) pos acc cmds hpos rfl rfl]
      have hdata : (exactTx pos (lByte size pos)).data = List.replicate (reqLen (lByte size pos)) 0 := rfl
      rw [hdata, List.length_replicate]
      rw [Nat.mod_eq_of_lt (show pos + reqLen (lByte size pos) < 65536 by omega)]
      rw [ih (pos + reqLen (lByte size pos)) (acc ++ List.replicate (reqLen (lByte size pos)) 0)
        (cmds ++ [encodeCmd size pos]) (by omega) (by omega)]
      rw [planCmds_pos size pos hpos]
      have harith : reqLen (lByte size pos) + (size - (pos + reqLen (lByte size pos))) = size - pos := by
        omega
      simp [List.append_assoc, ← List.replicate_add, harith]
    · have hz : size - pos = 0 := by omega
      simp [readBinaryLoop, hpos, planCmds_neg size pos hpos, hz]

lemma planCmds_length (size : Nat) :
    ∀ n pos, size - pos ≤ n → (planCmds size pos).length = (size - pos + 255) / 256 := by
  intro n
  induction n with
  | zero =>
    intro pos h
    have hpos : ¬ pos < size := by omega
    rw [planCmds_neg size pos hpos]
    have hz : size - pos = 0 := by omega
    simp [hz]
  | succ m ih =>
    intro pos h
    by_cases hpos : pos < size
    · obtain ⟨h1, h2⟩ := reqLen_lByte size pos hpos
      rw [planCmds_pos size pos hpos]
      simp only [List.length_cons]
      rw [ih (pos + reqLen (lByte size pos)) (by omega)]
      rcases reqLen_lByte_cases size pos hpos with ⟨hb, hL⟩ | ⟨hb, hL⟩ <;> rw [hL] <;> omega
    · rw [planCmds_neg size pos hpos]
      have hz : size - pos = 0 := by omega
      simp [hz]

lemma planCmds_sum (size : Nat) :
    ∀ n pos, size - pos ≤ n → ((planCmds size pos).map (fun c => reqLen c.lc)).sum = size - pos := by
  intro n
  induction n with
  | zero =>
    intro pos h
    have hpos : ¬ pos < size := by omega
    rw [planCmds_neg size pos hpos]
    simp only [List.map_nil, List.sum_nil]
    omega
  | succ m ih =>
    intro pos h
    by_cases hpos : pos < size
    · obtain ⟨h1, h2⟩ := reqLen_lByte size pos hpos
      rw [planCmds_pos size pos hpos]
      simp only [List.map_cons, List.sum_cons]
      rw [ih (pos + reqLen (lByte size pos)) (by omega)]
      have hlc : (encodeCmd size pos).lc = lByte size pos := rfl
      rw [hlc]
      omega
    · rw [planCmds_neg size pos hpos]
      simp only [List.map_nil, List.sum_nil]
      omega

lemma planCmds_mem (size : Nat) :
    ∀ n pos, size - pos ≤ n → ∀ c ∈ planCmds size pos, ∃ q, pos ≤ q ∧ q < size ∧ c = encodeCmd size q := by
  intro n
  induction n with
  | zero =>
    intro pos h c hc
    have hpos : ¬ pos < size := by omega
    rw [planCmds_neg size pos hpos] at hc
    simp at hc
  | succ m ih =>
    intro pos h c hc
    by_cases hpos : pos < size
    · obtain ⟨h1, h2⟩ := reqLen_lByte size pos hpos
      rw [planCmds_pos size pos hpos] at hc
      rcases List.mem_cons.mp hc with hc | hc
      · exact ⟨pos, le_refl pos, hpos, hc⟩
      · obtain ⟨q, hq1, hq2, hq3⟩ := ih (pos + reqLen (lByte size pos)) (by omega) c hc
        exact ⟨q, by omega, hq2, hq3⟩
    · rw [planCmds_neg size pos hpos] at hc
      simp at hc

lemma planCmds_chain (size : Nat) (hs : size < 65536) :
    ∀ n pos, size - pos ≤ n →
      List.Chain' (fun a b => decodePos a < decodePos b) (planCmds size pos) := by
  intro n
  induction n with
  | zero =>
    intro pos h
    have hpos : ¬ pos < size := by omega
    rw [planCmds_neg size pos hpos]
    exact List.chain'_nil
  | succ m ih =>
    intro pos h
    by_cases hpos : pos < size
    · obtain ⟨h1, h2⟩ := reqLen_lByte size pos hpos
      rw [planCmds_pos size pos hpos]
      rw [List.chain'_cons']
      refine ⟨?_, ih (pos + reqLen (lByte size pos)) (by omega)⟩
      intro b hb
      by_cases hpos' : pos + reqLen (lByte size pos) < size
      · rw [planCmds_pos size _ hpos'] at hb
        simp only [List.head?_cons, Option.mem_def, Option.some.injEq] at hb
        subst hb
        rw [decodePos_encodeCmd size pos (by omega),
          decodePos_encodeCmd size (pos + reqLen (lByte size pos)) (by omega)]
        omega
      · rw [planCmds_neg size _ hpos'] at hb
        simp at hb
    · rw [planCmds_neg size pos hpos]
      exact List.chain'_nil

/-- Claim C1 (amended): assuming each successful READ BINARY response returns
exactly the requested number of bytes, `ReadBinary` for total size `size`
issues `ceil(size / 256)` READ BINARY commands (class 00, instruction B0)
whose offsets are strictly increasing and encoded as a 16-bit big-endian value
split across the two parameter bytes, each requesting at most 256 bytes, whose
requested lengths sum exactly to `size`; a chunk request for more than 0xFF
remaining bytes — in particular for exactly 256 — encodes its length parameter
byte as 0, meaning 256. -/
theorem readBinary_chunking (size : Nat) (hs : size < 65536) :
    ReadBinary exactTx size (size + 1) = some ⟨planCmds size 0, some (List.replicate size 0)⟩
    ∧ (planCmds size 0).length = (size + 255) / 256
    ∧ List.Chain' (fun a b => decodePos a < decodePos b) (planCmds size 0)
    ∧ ((planCmds size 0).map (fun c => reqLen c.lc)).sum = size
    ∧ (∀ c ∈ planCmds size 0, c.cla = 0x00 ∧ c.ins = 0xB0 ∧ c.p1 = decodePos c / 256
        ∧ c.p2 = decodePos c % 256 ∧ decodePos c < size ∧ reqLen c.lc ≤ 256
        ∧ c.lc = (if 0xFF < size - decodePos c then 0 else size - decodePos c)) := by
  refine ⟨?_, ?_, ?_, ?_, ?_⟩
  · have h := readBinaryLoop_exact size hs size 0 [] [] (by omega) (by omega)
    simpa [ReadBinary] using h
  · simpa using planCmds_length size size 0 (by omega)
  · exact planCmds_chain size hs size 0 (by omega)
  · simpa using planCmds_sum size size 0 (by omega)
  · intro c hc
    obtain ⟨q, hq0, hq1, rfl⟩ := planCmds_mem size size 0 (by omega) c hc
    have hq65 : q < 65536 := by omega
    have hdec := decodePos_encodeCmd size q hq65
    rw [hdec]
    refine ⟨rfl, rfl, shiftRight8_and_255 q hq65, and_255_eq_mod q, hq1, ?_, rfl⟩
    have hlc : (encodeCmd size q).lc = lByte size q := rfl
    rw [hlc]
    rcases reqLen_lByte_cases size q hq1 with ⟨hb, hL⟩ | ⟨hb, hL⟩ <;> omega

/-- Witness for C1 at the concrete size 300: two commands are issued,
matching ceil(300/256). -/
theorem readBinary_chunking_witness :
    (planCmds 300 0).length = (300 + 255) / 256 :=
  (readBinary_chunking 300 (by norm_num)).2.1

set_option maxRecDepth 8000 in
/-- Claim C1 as frozen is false at size 256: under exact responses the code
issues one READ BINARY command, while ceil(256/255) = 2; moreover that single
command requests 256 bytes (length byte 0), not at most 255. -/
theorem readBinary_chunking_cex :
    (ReadBinary exactTx 256 257).map (fun r => r.cmds.length) = some 1
    ∧ (ReadBinary exactTx 256 257).map (fun r => r.cmds.map (fun c => reqLen c.lc)) = some [256]
    ∧ (256 + 254) / 255 = 2 :=
  ⟨by decide, by decide, by norm_num⟩

/-- Claim C3: at every position of the paging loop — whatever offset `pos`,
bytes `acc` accumulated so far and commands already issued — a page whose
status word is not 0x9000 makes `ReadBinary` abort at once and return the Go
`nil` (`res = none`), never a prefix of the bytes accumulated so far. -/
theorem readBinary_abort_on_failure (tx : Nat → Nat → Resp) (size fuel pos : Nat)
    (acc : List Nat) (cmds : List Apdu) (hpos : pos < size)
    (hfail : (tx pos (lByte size pos)).sw1 ≠ 0x90 ∨ (tx pos (lByte size pos)).sw2 ≠ 0x00) :
    readBinaryLoop tx size (fuel+1) pos acc cmds = some ⟨cmds ++ [encodeCmd size pos], none⟩ :=
  readBinaryLoop_step_fail tx size fuel pos acc cmds hpos hfail

/-- Witness for C3: a first page failing with status 0x6A82 aborts a size-10
read with no data returned. -/
theorem readBinary_abort_on_failure_witness :
    readBinaryLoop failTx 10 6 0 [] [] = some ⟨[] ++ [encodeCmd 10 0], none⟩ :=
  readBinary_abort_on_failure failTx 10 5 0 [] [] (by norm_num) (by decide)

/-- Claim C10 (amended): the paging loop of `ReadBinary` finishes within
`size + 1` iterations for every transport whose successful responses return
exactly the requested number of bytes; it does not terminate for every
response sequence (see the counterexample with zero-data 0x9000 responses). -/
theorem readBinary_termination (tx : Nat → Nat → Resp)
    (hexact : ∀ pos l, (tx pos l).sw1 = 0x90 → (tx pos l).sw2 = 0x00 →
      (tx pos l).data.length = reqLen l)
    (size : Nat) (hs : size < 65536) :
    ∀ fuel, size + 1 ≤ fuel → ReadBinary tx size fuel ≠ none := by
  have main : ∀ n pos acc cmds, pos ≤ size → size - pos ≤ n →
      readBinaryLoop tx size (n+1) pos acc cmds ≠ none := by
    intro n
    induction n with
    | zero =>
      intro pos acc cmds hps hn
      have hpos : ¬ pos < size := by omega
      simp [readBinaryLoop, hpos]
    | succ m ih =>
      intro pos acc cmds hps hn
      by_cases hpos : pos < size
      · by_cases hok : (tx pos (lByte size pos)).sw1 = 0x90 ∧ (tx pos (lByte size pos)).sw2 = 0x00
        · obtain ⟨h1, h2⟩ := reqLen_lByte size pos hpos
          rw [readBinaryLoop_step_success tx size (m+1) pos acc cmds hpos hok.1 hok.2]
          rw [hexact pos (lByte size pos) hok.1 hok.2]
          rw [Nat.mod_eq_of_lt (by omega)]
          exact ih _ _ _ (by omega) (by omega)
        · rw [readBinaryLoop_step_fail tx size (m+1) pos acc cmds hpos (not_and_or.mp hok)]
          simp
      · simp [readBinaryLoop, hpos]
  intro fuel hf
  obtain ⟨n, rfl⟩ : ∃ n, fuel = n + 1 := ⟨fuel - 1, by omega⟩
  exact main n 0 [] [] (by omega) (by omega)

/-- Witness for C10: with exact responses a size-5 read finishes within 6
iterations. -/
theorem readBinary_termination_witness : ReadBinary exactTx 5 6 ≠ none :=
  readBinary_termination exactTx (fun pos l h1 h2 => by simp [exactTx]) 5 (by norm_num)
    6 (by norm_num)

lemma zeroDataTx_aux : ∀ fuel acc cmds, readBinaryLoop zeroDataTx 1 fuel 0 acc cmds = none := by
  intro fuel
  induction fuel with
  | zero =>
    intro acc cmds
    rfl
  | succ m ih =>
    intro acc cmds
    rw [readBinaryLoop_step_success zeroDataTx 1 m 0 acc cmds (by norm_num) rfl rfl]
    simpa [zeroDataTx] using ih acc (cmds ++ [encodeCmd 1 0])

/-- Claim C10 as frozen is false: when every response carries status 0x9000
with zero data bytes, the paging loop of `ReadBinary` for size 1 never
terminates — its position never advances, however much fuel it is given. -/
theorem readBinary_zero_data_nonterm : loopsForever zeroDataTx 1 := by
  intro fuel
  exact zeroDataTx_aux fuel [] []

/-- Result of `Reader.Tx` (`src/reader.go:109-141`): the two status bytes, the
data slice (`none` models Go `nil`), and the diagnostic echo of a transport
error (`Tx` prints the transmission error before returning zeros; the printed
message is the modelled observable). -/
structure TxResult where
  sw1 : Nat
  sw2 : Nat
  data : Option (List Nat)
  errEcho : Option String
deriving DecidableEq

/-- `Reader.Tx` from `src/reader.go:109-141`, as a function of the transport
exchange outcome: `card.Transmit` either fails with an error or yields the raw
response bytes.  The verbose hex dump is a diagnostic side effect with no
functional content and is not modelled. -/
def Tx (transmit : Except String (List Nat)) : TxResult :=
  match transmit with
  | .error e => ⟨0, 0, none, some e⟩
  | .ok res =>
    if res.length = 2 then ⟨res.getD 0 0, res.getD 1 0, none, none⟩
    else if 2 < res.length then
      ⟨res.getD (res.length - 2) 0, res.getD (res.length - 1) 0,
        some (res.take (res.length - 2)), none⟩
    else ⟨0, 0, none, none⟩

lemma drop_eq_pair (a : List Nat) (n : Nat) (h : a.length = n + 2) :
    a.drop n = [a.getD n 0, a.getD (n+1) 0] := by
  induction a generalizing n with
  | nil => simp at h
  | cons x xs ih =>
    cases n with
    | zero =>
      match xs, h with
      | [y], _ => simp
    | succ m =>
      simp only [List.drop_succ_cons, List.getD_cons_succ]
      exact ih m (by simpa using h)

/-- Claim C4: `Tx` decodes a 2-byte response as status-only, a longer response
as data followed by the trailing 2-byte status word, and a sub-2-byte response
as a zero status word with no data; a transport-level transmission error also
yields the zero status word and no data, and the error itself is echoed to the
caller rather than swallowed. -/
theorem tx_response_decoding (res : List Nat) (e : String) :
    (res.length = 2 → (Tx (.ok res)).data = none
      ∧ res = [(Tx (.ok res)).sw1, (Tx (.ok res)).sw2])
    ∧ (2 < res.length → ∃ d, (Tx (.ok res)).data = some d ∧ d.length = res.length - 2
        ∧ res = d ++ [(Tx (.ok res)).sw1, (Tx (.ok res)).sw2])
    ∧ (res.length < 2 → Tx (.ok res) = ⟨0, 0, none, none⟩)
    ∧ (Tx (.error e)).sw1 = 0 ∧ (Tx (.error e)).sw2 = 0 ∧ (Tx (.error e)).data = none
    ∧ (Tx (.error e)).errEcho = some e := by
  refine ⟨?_, ?_, ?_, rfl, rfl, rfl, rfl⟩
  · intro h2
    have hr : res = [res.getD 0 0, res.getD 1 0] := by
      have hd := drop_eq_pair res 0 (by omega)
      simpa using hd
    refine ⟨by simp [Tx, h2], ?_⟩
    have hsw1 : (Tx (.ok res)).sw1 = res.getD 0 0 := by simp [Tx, h2]
    have hsw2 : (Tx (.ok res)).sw2 = res.getD 1 0 := by simp [Tx, h2]
    rw [hsw1, hsw2]
    exact hr
  · intro h2
    have hne : ¬ res.length = 2 := by omega
    refine ⟨res.take (res.length - 2), by simp [Tx, hne, h2], ?_, ?_⟩
    · rw [List.length_take]
      exact Nat.min_eq_left (by omega)
    · have hsw1 : (Tx (.ok res)).sw1 = res.getD (res.length - 2) 0 := by simp [Tx, hne, h2]
      have hsw2 : (Tx (.ok res)).sw2 = res.getD (res.length - 1) 0 := by simp [Tx, hne, h2]
      rw [hsw1, hsw2]
      have hd : res.drop (res.length - 2)
          = [res.getD (res.length - 2) 0, res.getD (res.length - 2 + 1) 0] :=
        drop_eq_pair res (res.length - 2) (by omega)
      have harith : res.length - 2 + 1 = res.length - 1 := by omega
      rw [harith] at hd
      conv_lhs => rw [← List.take_append_drop (res.length - 2) res]
      rw [hd]
  · intro h2
    have hne : ¬ res.length = 2 := by omega
    have hng : ¬ 2 < res.length := by omega
    simp [Tx, hne, hng]

/-- Witness for C4: a 5-byte response splits into 3 data bytes and the status
word 0x9000, via the theorem applied at a concrete response. -/
theorem tx_response_decoding_witness :
    ∃ d, (Tx (.ok [1, 2, 3, 0x90, 0x00])).data = some d ∧ d.length = 5 - 2
      ∧ [1, 2, 3, 0x90, 0x00] = d ++ [(Tx (.ok [1, 2, 3, 0x90, 0x00])).sw1,
          (Tx (.ok [1, 2, 3, 0x90, 0x00])).sw2] :=
  (tx_response_decoding [1, 2, 3, 0x90, 0x00] "").2.1 (by norm_num)

/-- Status of one `GetStatusChange` poll in `Reader.WaitForCard`
(`src/reader.go:67-89`): the call errors, or reports the card-present bit set,
or reports the card absent. -/
inductive CardStatus where
  | statusErr
  | present
  | absent
deriving DecidableEq

/-- Observable events of `WaitForCard`: one status poll, and the 1-second
sleep `time.Sleep(1 * time.Second)` taken while the card is absent. -/
inductive WaitEv where
  | poll (i : Nat)
  | sleepOneSec
deriving DecidableEq

/-- Outcome of `WaitForCard`: a connected card is returned, or `nil` is
returned after a `GetStatusChange` error, or the process exits via
`os.Exit(1)` after the retry budget is exhausted. -/
inductive WaitOutcome where
  | gotCard
  | errNil
  | exitedProcess (code : Nat)
deriving DecidableEq

/-- Loop of `Reader.WaitForCard` (`src/reader.go:71-85`): `for i := 0; i < 3;
i++`.  `st i` is the outcome of the i-th `GetStatusChange` poll.  On error the
function prints and returns `nil`; when the present bit is set it connects and
returns the card (the `Connect` error is discarded by the source); otherwise
it prints, sleeps one second and retries.  Falling out of the loop prints and
calls `os.Exit(1)`. -/
def waitForCardLoop (st : Nat → CardStatus) (i : Nat) (tr : List WaitEv) :
    WaitOutcome × List WaitEv :=
  if i < 3 then
    match st i with
    | .statusErr => (.errNil, tr ++ [.poll i])
    | .present => (.gotCard, tr ++ [.poll i])
    | .absent => waitForCardLoop st (i+1) (tr ++ [.poll i, .sleepOneSec])
  else (.exitedProcess 1, tr)
termination_by 3 - i

/-- `Reader.WaitForCard` from `src/reader.go:67-89`. -/
def WaitForCard (st : Nat → CardStatus) : WaitOutcome × List WaitEv :=
  waitForCardLoop st 0 []

/-- Recognizes a status poll event. -/
def isPoll (ev : WaitEv) : Bool :=
  match ev with
  | .poll _ => true
  | _ => false

/-- Claim C5: `WaitForCard` polls reader status at most 3 times; when the card
stays absent it sleeps one second after each failed attempt, and after the
third absent poll the process terminates via exit code 1 — a terminal outcome
the core never retries further. -/
theorem waitForCard_retry_cap (st : Nat → CardStatus) :
    (WaitForCard st).2.countP isPoll ≤ 3
    ∧ ((∀ i, i < 3 → st i = CardStatus.absent) →
        WaitForCard st = (.exitedProcess 1,
          [.poll 0, .sleepOneSec, .poll 1, .sleepOneSec, .poll 2, .sleepOneSec])) := by
  constructor
  · rcases h0 : st 0 with _ | _ | _
    · simp [WaitForCard, waitForCardLoop, h0, isPoll]
    · simp [WaitForCard, waitForCardLoop, h0, isPoll]
    · rcases h1 : st 1 with _ | _ | _
      · simp [WaitForCard, waitForCardLoop, h0, h1, isPoll]
      · simp [WaitForCard, waitForCardLoop, h0, h1, isPoll]
      · rcases h2 : st 2 with _ | _ | _ <;>
          simp [WaitForCard, waitForCardLoop, h0, h1, h2, isPoll]
  · intro hab
    have h0 := hab 0 (by norm_num)
    have h1 := hab 1 (by norm_num)
    have h2 := hab 2 (by norm_num)
    simp [WaitForCard, waitForCardLoop, h0, h1, h2]

/-- Transport in which the card never shows up. -/
def absentSt : Nat → CardStatus := fun _ => CardStatus.absent

/-- Witness for C5: with the card absent on all three polls, `WaitForCard`
exits the process with code 1 after three poll/sleep rounds. -/
theorem waitForCard_retry_cap_witness :
    WaitForCard absentSt = (.exitedProcess 1,
      [.poll 0, .sleepOneSec, .poll 1, .sleepOneSec, .poll 2, .sleepOneSec]) :=
  (waitForCard_retry_cap absentSt).2 (fun _ _ => rfl)

/-- Error values of the libmyna workflows, following the spec's error taxonomy
(section 7) and the distinct error objects `api.go` constructs. -/
inductive Err where
  | selectFailed (what : String)
  | pinVerifyFailed (sw : Nat)
  | pinFormatInvalid (pin : String)
  | changePinFailed
  | readFailed
  | parseFailed
  | unsupportedDigest (md : String)
  | notMynaCard
  | tokenUnavailable
  | wrongCardLegacy
  | wrongCardUnknown (token : String)
  | transportFailed
deriving DecidableEq

/-- Card and reader interactions a workflow performs, in order. -/
inductive Ev where
  | newReader
  | connect
  | selectJPKI
  | selectHelper
  | selectEF (id : String)
  | verify
  | readBinary (size : Nat)
  | changePin
  | signature
  | getToken
  | verifySignPin
  | readCert (efid : String)
deriving DecidableEq

/-- A Go computation that either produces a value or panics at runtime. -/
inductive GoVal (α : Type) where
  | ok (a : α)
  | panicked
deriving DecidableEq

/-- Modelled from the spec: observable behaviour of the libmyna reader object
and the external collaborators that `api.go` calls into and whose code is not
under src/ (`NewReader`, `Connect`, `SelectJPKIAP`, `SelectEF`, the VERIFY and
CHANGE PIN exchanges, `ReadBinary`, `GetToken`, `VerifySignPin`,
`ReadCertificate`, `Signature`, file reading, `asn1.Unmarshal` and the pkcs7
content digest).  Each field fixes the outcome the collaborator produces for
one call, so a value of `Env` is one mock card/transport scenario. -/
structure Env where
  newReaderErr : Option Err
  connectErr : Option Err
  selectJPKIAPErr : Option Err
  selectEFErr : String → Option Err
  verifySW : String → Nat
  verifySignPinSW : String → Nat
  changePinOk : String → Bool
  readBin : Nat → Option (List Nat)
  token : String
  readCert : String → Except Err Nat
  signatureRes : List Nat → Except Err (List Nat)
  readFile : Except Err (List Nat)
  unmarshal : List Nat → List Nat × Nat
  hashContent : List Nat → List Nat

def tokenJPKI2 : String := "JPKIAPICCTOKEN2"

def tokenJPKI1 : String := "JPKIAPICCTOKEN"

def efTokenInfo : String := "00 06"

def efHelperPin : String := "00 11"

def efMyNumber : String := "00 01"

def efAttrFile : String := "00 02"

def efAuthPin : String := "00 18"

def efSignPin : String := "00 1B"

def efSignFile : String := "00 1A"

def efAuthCert : String := "00 0A"

def efAuthCACert : String := "00 0B"

def efSignCert : String := "00 01"

def efSignCACert : String := "00 02"

def strHelper : String := "CARD_INPUT_HELPER"

def strAuth : String := "JPKI_AUTH"

def emptyPin : String := ""

/-- Modelled from the spec: `reader.Verify(pin)` lives in the libmyna reader
file that is not under src/.  Spec sections 4.3 and 7: it transmits a VERIFY
APDU; status word 0x9000 is success, and any other status word is reported as
a PinVerifyFailed error — distinct from selection failures — carrying the
status-word detail.  `env.verifySW pin` is the status word the card returns. -/
def Verify (env : Env) (pin : String) : Option Err :=
  if env.verifySW pin = 0x9000 then none
  else some (Err.pinVerifyFailed (env.verifySW pin))

/-- Modelled from the spec: `jpkiAP.VerifySignPin(pin)` (not under src/), the
signing-PIN variant of PIN verification with the same status-word contract. -/
def VerifySignPin (env : Env) (pin : String) : Option Err :=
  if env.verifySignPinSW pin = 0x9000 then none
  else some (Err.pinVerifyFailed (env.verifySignPinSW pin))

/-- ASCII core of Go `strings.ToUpper` (the PINs and algorithm names the
workflows normalize are ASCII). -/
def charUpper (c : Char) : Char :=
  if c.isLower then Char.ofNat (c.toNat - 32) else c

/-- Go `strings.ToUpper` on ASCII strings. -/
def goToUpper (s : String) : String := ⟨s.data.map charUpper⟩

/-- Modelled from the spec: `Validate4DigitPin` (repo code not under src/).
Spec section 8: numeric PIN validation accepts exactly 4 ASCII decimal digits
and rejects any other length or character set. -/
def Validate4DigitPin (pin : String) : Option Err :=
  if pin.data.length = 4 ∧ pin.data.all Char.isDigit = true then none
  else some (Err.pinFormatInvalid pin)

/-- Modelled from the spec: `ValidateJPKISignPassword` (repo code not under
src/).  Spec sections 3 and 9: the signing password is an uppercase
alphanumeric secret; the exact length bounds are left open by the spec, so
only the character-set constraint is modelled. -/
def ValidateJPKISignPassword (pin : String) : Option Err :=
  if pin.data.all (fun c => c.isUpper || c.isDigit) = true then none
  else some (Err.pinFormatInvalid pin)

/-- Go slice expression `data[off:]`: panics when `off` exceeds the slice
length, otherwise drops the first `off` bytes. -/
def goSliceFrom (data : List Nat) (off : Nat) : GoVal (List Nat) :=
  if off ≤ data.length then .ok (data.drop off) else .panicked

/-- Modelled from the spec: `ASN1PartialParser` (repo code not under src/),
spec section 4.2.  From the first bytes of a DER object it returns the total
object size (content length plus header length) and the offset where content
starts; short-form lengths have the top bit clear, long-form lengths carry the
count of following big-endian length bytes in the low 7 bits; insufficient
bytes are a parse failure, never guessed. -/
def asn1PartialParse (data : List Nat) : Except Err (Nat × Nat) :=
  match data with
  | _ :: b :: rest =>
    if b < 0x80 then .ok (b + 2, 2)
    else
      let n := b - 0x80
      if rest.length < n then .error Err.parseFailed
      else .ok ((rest.take n).foldl (fun a x => a * 256 + x) 0 + 2 + n, 2 + n)
  | _ => .error Err.parseFailed

/-- `CheckCard` from `src/libmyna/api.go:22-52`: select the JPKI application,
select the token-info file, read the token string (its read error is ignored
by the source) and accept exactly `JPKIAPICCTOKEN2`; `JPKIAPICCTOKEN` is the
legacy resident-register card error, anything else the unknown-token error. -/
def CheckCard (env : Env) : Option Err × List Ev :=
  match env.newReaderErr with
  | some e => (some e, [.newReader])
  | none =>
    match env.connectErr with
    | some e => (some e, [.newReader, .connect])
    | none =>
      match env.selectJPKIAPErr with
      | some _ => (some Err.notMynaCard, [.newReader, .connect, .selectJPKI])
      | none =>
        match env.selectEFErr efTokenInfo with
        | some _ => (some Err.tokenUnavailable,
            [.newReader, .connect, .selectJPKI, .selectEF efTokenInfo])
        | none =>
          let tr := [Ev.newReader, Ev.connect, Ev.selectJPKI, Ev.selectEF efTokenInfo,
            Ev.getToken]
          if env.token = tokenJPKI2 then (none, tr)
          else if env.token = tokenJPKI1 then (some Err.wrongCardLegacy, tr)
          else (some (Err.wrongCardUnknown env.token), tr)

/-- `GetMyNumber` from `src/libmyna/api.go:55-77`.  The results of
`SelectCardInputHelperAP` and both `SelectEF` calls are discarded by the
source; `Verify` failure returns early; then 16 bytes are read and sliced with
`data[1:]` — which panics when the read failed and `data` is nil — and the
personal number is the `Bytes` field the external `asn1.Unmarshal` collaborator
produces (its error is ignored by the source). -/
def GetMyNumber (env : Env) (pin : String) : GoVal (List Nat × Option Err) × List Ev :=
  match env.newReaderErr with
  | some e => (.ok ([], some e), [.newReader])
  | none =>
    match env.connectErr with
    | some e => (.ok ([], some e), [.newReader, .connect])
    | none =>
      match Verify env pin with
      | some e => (.ok ([], some e),
          [.newReader, .connect, .selectHelper, .selectEF efHelperPin, .verify])
      | none =>
        let tr := [Ev.newReader, Ev.connect, Ev.selectHelper, Ev.selectEF efHelperPin,
          Ev.verify, Ev.selectEF efMyNumber, Ev.readBinary 16]
        let data := (env.readBin 16).getD []
        match goSliceFrom data 1 with
        | .panicked => (.panicked, tr)
        | .ok sliced => (.ok ((env.unmarshal sliced).1, none), tr)

/-- Decode loop of `GetAttrInfo` (`src/libmyna/api.go:116-120`): five rounds of
`asn1.Unmarshal(data[offset:], ...)`, advancing the offset by the decoded
element's `FullBytes` length; the slice panics when the offset exceeds the
data length. -/
def attrLoop (un : List Nat → List Nat × Nat) (data : List Nat) :
    Nat → Nat → List (List Nat) → GoVal (List (List Nat))
  | 0, _, acc => .ok acc.reverse
  | i+1, off, acc =>
    match goSliceFrom data off with
    | .panicked => .panicked
    | .ok sliced => attrLoop un data i (off + (un sliced).2) ((un sliced).1 :: acc)

/-- `GetAttrInfo` from `src/libmyna/api.go:80-130`: after PIN verification it
reads a 7-byte DER prefix, checks the length, sizes the full object with the
partial parser, reads it, and decodes the five attribute elements (the map of
header/name/address/birth/sex strings is modelled as the list of their byte
contents). -/
def GetAttrInfo (env : Env) (pin : String) :
    GoVal (Option (List (List Nat)) × Option Err) × List Ev :=
  match env.newReaderErr with
  | some e => (.ok (none, some e), [.newReader])
  | none =>
    match env.connectErr with
    | some e => (.ok (none, some e), [.newReader, .connect])
    | none =>
      match Verify env pin with
      | some e => (.ok (none, some e),
          [.newReader, .connect, .selectHelper, .selectEF efHelperPin, .verify])
      | none =>
        let tr := [Ev.newReader, Ev.connect, Ev.selectHelper, Ev.selectEF efHelperPin,
          Ev.verify, Ev.selectEF efAttrFile, Ev.readBinary 7]
        let data := (env.readBin 7).getD []
        if data.length ≠ 7 then (.ok (none, some Err.readFailed), tr)
        else
          match asn1PartialParse data with
          | .error e => (.ok (none, some e), tr)
          | .ok szoff =>
            let tr2 := tr ++ [Ev.readBinary szoff.1]
            let data2 := (env.readBin szoff.1).getD []
            match attrLoop env.unmarshal data2 5 szoff.2 [] with
            | .panicked => (.panicked, tr2)
            | .ok attrs => (.ok (some attrs, none), tr2)

/-- `Change4DigitPin` from `src/libmyna/api.go:140-182`: both PINs are
format-validated before any reader is opened; the `switch pintype` selects the
helper or JPKI-auth application and PIN file (their results are discarded);
`Verify` failure returns early; then the CHANGE PIN command runs. -/
def Change4DigitPin (env : Env) (pin newpin pintype : String) : Option Err × List Ev :=
  match Validate4DigitPin pin with
  | some e => (some e, [])
  | none =>
    match Validate4DigitPin newpin with
    | some e => (some e, [])
    | none =>
      match env.newReaderErr with
      | some e => (some e, [.newReader])
      | none =>
        match env.connectErr with
        | some e => (some e, [.newReader, .connect])
        | none =>
          let selEvs : List Ev :=
            if pintype = strHelper then [.selectHelper, .selectEF efHelperPin]
            else if pintype = strAuth then [.selectJPKI, .selectEF efAuthPin]
            else []
          match Verify env pin with
          | some e => (some e, [Ev.newReader, Ev.connect] ++ selEvs ++ [Ev.verify])
          | none =>
            if env.changePinOk newpin then
              (none, [Ev.newReader, Ev.connect] ++ selEvs ++ [Ev.verify, Ev.changePin])
            else
              (some Err.changePinFailed,
                [Ev.newReader, Ev.connect] ++ selEvs ++ [Ev.verify, Ev.changePin])

/-- `ChangeCardInputHelperPin` from `src/libmyna/api.go:132-134`. -/
def ChangeCardInputHelperPin (env : Env) (pin newpin : String) : Option Err × List Ev :=
  Change4DigitPin env pin newpin strHelper

/-- `ChangeJPKIAuthPin` from `src/libmyna/api.go:136-138`. -/
def ChangeJPKIAuthPin (env : Env) (pin newpin : String) : Option Err × List Ev :=
  Change4DigitPin env pin newpin strAuth

/-- `ChangeJPKISignPin` from `src/libmyna/api.go:184-221`: each password is
uppercased and then format-validated before any reader is opened; after JPKI
application and signing-PIN file selection (results discarded), `Verify` runs
on the uppercased old password and gates the CHANGE PIN command. -/
def ChangeJPKISignPin (env : Env) (pin0 newpin0 : String) : Option Err × List Ev :=
  let pin := goToUpper pin0
  match ValidateJPKISignPassword pin with
  | some e => (some e, [])
  | none =>
    let newpin := goToUpper newpin0
    match ValidateJPKISignPassword newpin with
    | some e => (some e, [])
    | none =>
      match env.newReaderErr with
      | some e => (some e, [.newReader])
      | none =>
        match env.connectErr with
        | some e => (some e, [.newReader, .connect])
        | none =>
          match Verify env pin with
          | some e => (some e,
              [.newReader, .connect, .selectJPKI, .selectEF efSignPin, .verify])
          | none =>
            if env.changePinOk newpin then
              (none, [.newReader, .connect, .selectJPKI, .selectEF efSignPin, .verify,
                .changePin])
            else
              (some Err.changePinFailed,
                [.newReader, .connect, .selectJPKI, .selectEF efSignPin, .verify,
                  .changePin])

/-- `GetJPKICert` from `src/libmyna/api.go:223-248`: reader/connect/select
errors propagate, a non-empty password is verified as the signing PIN, and the
certificate file is read — but the final `return cert, nil`
(`src/libmyna/api.go:247`) forwards the certificate while discarding
`ReadCertificate`'s error, so a failed read produces a nil certificate with a
nil error.  The parsed certificate itself is opaque here (a `Nat` handle). -/
def GetJPKICert (env : Env) (efid pin : String) : (Option Nat × Option Err) × List Ev :=
  match env.newReaderErr with
  | some e => ((none, some e), [.newReader])
  | none =>
    match env.connectErr with
    | some e => ((none, some e), [.newReader, .connect])
    | none =>
      match env.selectJPKIAPErr with
      | some e => ((none, some e), [.newReader, .connect, .selectJPKI])
      | none =>
        if pin = emptyPin then
          match env.readCert efid with
          | .error _ => ((none, none), [.newReader, .connect, .selectJPKI, .readCert efid])
          | .ok c => ((some c, none), [.newReader, .connect, .selectJPKI, .readCert efid])
        else
          match VerifySignPin env pin with
          | some e => ((none, some e), [.newReader, .connect, .selectJPKI, .verifySignPin])
          | none =>
            match env.readCert efid with
            | .error _ => ((none, none),
                [.newReader, .connect, .selectJPKI, .verifySignPin, .readCert efid])
            | .ok c => ((some c, none),
                [.newReader, .connect, .selectJPKI, .verifySignPin, .readCert efid])

/-- `GetJPKIAuthCert` from `src/libmyna/api.go:250-252`. -/
def GetJPKIAuthCert (env : Env) : (Option Nat × Option Err) × List Ev :=
  GetJPKICert env efAuthCert emptyPin

/-- `GetJPKIAuthCACert` from `src/libmyna/api.go:254-256`. -/
def GetJPKIAuthCACert (env : Env) : (Option Nat × Option Err) × List Ev :=
  GetJPKICert env efAuthCACert emptyPin

/-- `GetJPKISignCert` from `src/libmyna/api.go:258-260`. -/
def GetJPKISignCert (env : Env) (pass : String) : (Option Nat × Option Err) × List Ev :=
  GetJPKICert env efSignCert pass

/-- `GetJPKISignCACert` from `src/libmyna/api.go:262-264`. -/
def GetJPKISignCACert (env : Env) : (Option Nat × Option Err) × List Ev :=
  GetJPKICert env efSignCACert emptyPin

/-- `JPKISignSigner` from `src/libmyna/api.go:343-346`: the bound signing PIN
and public key (opaque handle). -/
structure JPKISignSigner where
  pin : String
  pubkey : Nat

/-- Modelled from the spec: `makeDigestInfo` (repo code not under src/), spec
section 4.4 — it pairs the digest-algorithm identifier with the digest value;
the exact DER layout is immaterial to the claims, so the pairing is modelled
as concatenation. -/
def makeDigestInfo (oid digest : List Nat) : List Nat := oid ++ digest

/-- `JPKISignSigner.Sign` from `src/libmyna/api.go:352-377`: the digest-info
block is built first, then reader/connect errors propagate, the JPKI
application and signing-PIN file selections are discarded, `Verify` on the
bound PIN gates everything, and only then the signature file is selected and
the signature command transmitted. -/
def JPKISignSigner.Sign (self : JPKISignSigner) (env : Env) (oid digest : List Nat) :
    Except Err (List Nat) × List Ev :=
  let digestInfo := makeDigestInfo oid digest
  match env.newReaderErr with
  | some e => (.error e, [.newReader])
  | none =>
    match env.connectErr with
    | some e => (.error e, [.newReader, .connect])
    | none =>
      match Verify env self.pin with
      | some e => (.error e,
          [.newReader, .connect, .selectJPKI, .selectEF efSignPin, .verify])
      | none =>
        match env.signatureRes digestInfo with
        | .error e => (.error e,
            [.newReader, .connect, .selectJPKI, .selectEF efSignPin, .verify,
              .selectEF efSignFile, .signature])
        | .ok sig => (.ok sig,
            [.newReader, .connect, .selectJPKI, .selectEF efSignPin, .verify,
              .selectEF efSignFile, .signature])

def oidSHA1 : List Nat := [1, 3, 14, 3, 2, 26]

def oidSHA256 : List Nat := [2, 16, 840, 1, 101, 3, 4, 2, 1]

def oidSHA384 : List Nat := [2, 16, 840, 1, 101, 3, 4, 2, 2]

def oidSHA512 : List Nat := [2, 16, 840, 1, 101, 3, 4, 2, 3]

def strSHA1 : String := "SHA1"

def strSHA256 : String := "SHA256"

def strSHA384 : String := "SHA384"

def strSHA512 : String := "SHA512"

/-- `GetDigestOID` from `src/libmyna/api.go:379-392`: switch on the uppercased
digest-algorithm name over the four supported names; any other name is the
unsupported-algorithm error, reported with the original spelling. -/
def GetDigestOID (md : String) : Except Err (List Nat) :=
  if goToUpper md = strSHA1 then .ok oidSHA1
  else if goToUpper md = strSHA256 then .ok oidSHA256
  else if goToUpper md = strSHA384 then .ok oidSHA384
  else if goToUpper md = strSHA512 then .ok oidSHA512
  else .error (Err.unsupportedDigest md)

/-- `CmsSignOpts` from `src/libmyna/api.go:394-397`. -/
structure CmsSignOpts where
  hash : String
  form : String

/-- `CmsSignJPKISign` from `src/libmyna/api.go:399-435`: the digest algorithm
name is resolved first — before the input file is read and before any reader
is opened — then the input is read, the signing certificate fetched (a nil
certificate from the `GetJPKICert` bug makes `cert.PublicKey` dereference a
nil pointer, a panic), and the pkcs7 builder signs the content digest through
`JPKISignSigner.Sign`; writing the output is file I/O with no card events. -/
def CmsSignJPKISign (env : Env) (pin : String) (opts : CmsSignOpts) :
    GoVal (Option Err) × List Ev :=
  match GetDigestOID opts.hash with
  | .error e => (.ok (some e), [])
  | .ok oid =>
    match env.readFile with
    | .error e => (.ok (some e), [])
    | .ok content =>
      let certRes := GetJPKISignCert env pin
      match certRes.1.2 with
      | some e => (.ok (some e), certRes.2)
      | none =>
        match certRes.1.1 with
        | none => (.panicked, certRes.2)
        | some pk =>
          let signRes := JPKISignSigner.Sign ⟨pin, pk⟩ env oid (env.hashContent content)
          match signRes.1 with
          | .error e => (.ok (some e), certRes.2 ++ signRes.2)
          | .ok _ => (.ok none, certRes.2 ++ signRes.2)

def pin1234 : String := "1234"

def pin5678 : String := "5678"

def badPin : String := "12a4"

def strMD5 : String := "MD5"

def strPEM : String := "PEM"

/-- Scenario: everything succeeds except that every VERIFY returns status
0x63C0 (wrong PIN, no retries left). -/
def envW : Env :=
  ⟨none, none, none, fun _ => none, fun _ => 0x63C0, fun _ => 0x9000, fun _ => true,
    fun _ => some [], tokenJPKI2, fun _ => Except.ok 0, fun _ => Except.ok [],
    Except.ok [], fun _ => ([], 0), fun _ => []⟩

/-- Scenario: everything succeeds except that reading the certificate file
fails. -/
def envC2 : Env :=
  ⟨none, none, none, fun _ => none, fun _ => 0x9000, fun _ => 0x9000, fun _ => true,
    fun _ => some [], tokenJPKI2, fun _ => Except.error Err.readFailed,
    fun _ => Except.ok [], Except.ok [], fun _ => ([], 0), fun _ => []⟩

/-- Scenario: everything succeeds except that every binary read fails and
returns the Go `nil`. -/
def envC9 : Env :=
  ⟨none, none, none, fun _ => none, fun _ => 0x9000, fun _ => 0x9000, fun _ => true,
    fun _ => none, tokenJPKI2, fun _ => Except.ok 0, fun _ => Except.ok [],
    Except.ok [], fun _ => ([], 0), fun _ => []⟩

/-- Scenario: a legacy resident-register card — the token string reads as
`JPKIAPICCTOKEN`. -/
def envLegacy : Env :=
  ⟨none, none, none, fun _ => none, fun _ => 0x9000, fun _ => 0x9000, fun _ => true,
    fun _ => some [], tokenJPKI1, fun _ => Except.ok 0, fun _ => Except.ok [],
    Except.ok [], fun _ => ([], 0), fun _ => []⟩

/-- Claim C2 is violated by the code: when reading the certificate file from
the card fails, `GetJPKICert` — and `GetJPKIAuthCert` built on it — returns a
nil certificate together with a nil error, because the final `return cert,
nil` (`src/libmyna/api.go:247`) discards the error `ReadCertificate` reported. -/
theorem getJPKICert_drops_read_error :
    GetJPKICert envC2 efAuthCert emptyPin
      = ((none, none), [.newReader, .connect, .selectJPKI, .readCert efAuthCert])
    ∧ GetJPKIAuthCert envC2
      = ((none, none), [.newReader, .connect, .selectJPKI, .readCert efAuthCert]) :=
  ⟨rfl, rfl⟩

/-- Claim C9 is violated by the code: when the 16-byte binary read fails,
`ReadBinary` yields the Go `nil`, and `GetMyNumber` panics on the slice
expression `data[1:]` (`src/libmyna/api.go:75`) instead of returning a
(string, error) pair. -/
theorem getMyNumber_panics_on_failed_read :
    GetMyNumber envC9 pin1234
      = (.panicked, [.newReader, .connect, .selectHelper, .selectEF efHelperPin, .verify,
          .selectEF efMyNumber, .readBinary 16]) :=
  rfl

/-- Claim C6: in every PIN-verifying workflow — `GetMyNumber`, `GetAttrInfo`,
`Change4DigitPin` (both variants), `ChangeJPKISignPin` and
`JPKISignSigner.Sign` — a failed PIN verification (status other than 0x9000)
makes the operation return the PinVerifyFailed error immediately: no binary
read, CHANGE PIN command or signature command is issued, and the reported
error is distinct from any selection-step failure. -/
theorem pin_verify_gates_operations (env : Env) (pin newpin : String) (pk : Nat)
    (oid digest : List Nat)
    (hnr : env.newReaderErr = none) (hc : env.connectErr = none)
    (hv : env.verifySW pin ≠ 0x9000) (hvu : env.verifySW (goToUpper pin) ≠ 0x9000)
    (h4a : Validate4DigitPin pin = none) (h4b : Validate4DigitPin newpin = none)
    (hsa : ValidateJPKISignPassword (goToUpper pin) = none)
    (hsb : ValidateJPKISignPassword (goToUpper newpin) = none) :
    GetMyNumber env pin = (.ok ([], some (Err.pinVerifyFailed (env.verifySW pin))),
      [.newReader, .connect, .selectHelper, .selectEF efHelperPin, .verify])
    ∧ GetAttrInfo env pin = (.ok (none, some (Err.pinVerifyFailed (env.verifySW pin))),
      [.newReader, .connect, .selectHelper, .selectEF efHelperPin, .verify])
    ∧ Change4DigitPin env pin newpin strHelper
      = (some (Err.pinVerifyFailed (env.verifySW pin)),
        [.newReader, .connect, .selectHelper, .selectEF efHelperPin, .verify])
    ∧ Change4DigitPin env pin newpin strAuth
      = (some (Err.pinVerifyFailed (env.verifySW pin)),
        [.newReader, .connect, .selectJPKI, .selectEF efAuthPin, .verify])
    ∧ ChangeJPKISignPin env pin newpin
      = (some (Err.pinVerifyFailed (env.verifySW (goToUpper pin))),
        [.newReader, .connect, .selectJPKI, .selectEF efSignPin, .verify])
    ∧ JPKISignSigner.Sign ⟨pin, pk⟩ env oid digest
      = (.error (Err.pinVerifyFailed (env.verifySW pin)),
        [.newReader, .connect, .selectJPKI, .selectEF efSignPin, .verify])
    ∧ (∀ s, Err.pinVerifyFailed (env.verifySW pin) ≠ Err.selectFailed s)
    ∧ (∀ n, Ev.readBinary n
        ∉ ([.newReader, .connect, .selectHelper, .selectEF efHelperPin, .verify] : List Ev))
    ∧ Ev.changePin
        ∉ ([.newReader, .connect, .selectJPKI, .selectEF efAuthPin, .verify] : List Ev)
    ∧ Ev.signature
        ∉ ([.newReader, .connect, .selectJPKI, .selectEF efSignPin, .verify] : List Ev) := by
  refine ⟨?_, ?_, ?_, ?_, ?_, ?_, fun s => by simp, fun n => by simp, by simp, by simp⟩
  · simp [GetMyNumber, hnr, hc, Verify, hv]
  · simp [GetAttrInfo, hnr, hc, Verify, hv]
  · simp [Change4DigitPin, h4a, h4b, hnr, hc, Verify, hv]
  · simp [Change4DigitPin, h4a, h4b, hnr, hc, Verify, hv, strAuth, strHelper]
  · simp [ChangeJPKISignPin, hsa, hsb, hnr, hc, Verify, hvu]
  · simp [JPKISignSigner.Sign, hnr, hc, Verify, hv]

/-- Witness for C6: with every VERIFY answering 0x63C0, changing the helper
PIN from 1234 to 5678 fails with PinVerifyFailed and no CHANGE PIN command. -/
theorem pin_verify_gates_operations_witness :
    Change4DigitPin envW pin1234 pin5678 strHelper
      = (some (Err.pinVerifyFailed 0x63C0),
        [.newReader, .connect, .selectHelper, .selectEF efHelperPin, .verify]) :=
  (pin_verify_gates_operations envW pin1234 pin5678 0 [] [] rfl rfl
    (by decide) (by decide) (by decide) (by decide) (by decide) (by decide)).2.2.1

/-- Claim C7: a badly formatted PIN (old or new) in `Change4DigitPin` or
`ChangeJPKISignPin` — the latter checking the uppercase-normalized password —
and an unsupported digest-algorithm name in `CmsSignJPKISign` are each
reported before any card I/O: the returned event trace is empty, so no reader
is opened and no APDU transmitted. -/
theorem format_checks_precede_card_io (env : Env) (pin newpin pintype : String)
    (opts : CmsSignOpts) (e : Err) :
    (Validate4DigitPin pin = some e → Change4DigitPin env pin newpin pintype = (some e, []))
    ∧ (Validate4DigitPin pin = none → Validate4DigitPin newpin = some e →
        Change4DigitPin env pin newpin pintype = (some e, []))
    ∧ (ValidateJPKISignPassword (goToUpper pin) = some e →
        ChangeJPKISignPin env pin newpin = (some e, []))
    ∧ (ValidateJPKISignPassword (goToUpper pin) = none →
        ValidateJPKISignPassword (goToUpper newpin) = some e →
        ChangeJPKISignPin env pin newpin = (some e, []))
    ∧ (GetDigestOID opts.hash = Except.error e →
        CmsSignJPKISign env pin opts = (.ok (some e), [])) := by
  refine ⟨fun h => ?_, fun h1 h2 => ?_, fun h => ?_, fun h1 h2 => ?_, fun h => ?_⟩
  · simp [Change4DigitPin, h]
  · simp [Change4DigitPin, h1, h2]
  · simp [ChangeJPKISignPin, h]
  · simp [ChangeJPKISignPin, h1, h2]
  · simp [CmsSignJPKISign, h]

/-- Witness for C7: the malformed PIN 12a4 is rejected with an empty event
trace — no card I/O at all. -/
theorem format_checks_precede_card_io_witness :
    Change4DigitPin envW badPin pin5678 strHelper
      = (some (Err.pinFormatInvalid badPin), []) :=
  (format_checks_precede_card_io envW badPin pin5678 strHelper ⟨strMD5, strPEM⟩
    (Err.pinFormatInvalid badPin)).1 (by decide)

/-- Claim C8: once the session and selections succeed, `CheckCard` succeeds
exactly when the token string equals `JPKIAPICCTOKEN2`; the legacy token
`JPKIAPICCTOKEN` yields the dedicated legacy-card error, which differs from
the generic unknown-token error; every other token yields the unknown-token
error carrying the token read. -/
theorem checkCard_token_trichotomy (env : Env)
    (hnr : env.newReaderErr = none) (hc : env.connectErr = none)
    (hap : env.selectJPKIAPErr = none) (hef : env.selectEFErr efTokenInfo = none) :
    ((CheckCard env).1 = none ↔ env.token = tokenJPKI2)
    ∧ (env.token = tokenJPKI1 → (CheckCard env).1 = some Err.wrongCardLegacy)
    ∧ (env.token ≠ tokenJPKI2 → env.token ≠ tokenJPKI1 →
        (CheckCard env).1 = some (Err.wrongCardUnknown env.token))
    ∧ (∀ t, Err.wrongCardLegacy ≠ Err.wrongCardUnknown t) := by
  refine ⟨?_, ?_, ?_, fun t => by simp⟩
  · by_cases ht : env.token = tokenJPKI2
    · simp [CheckCard, hnr, hc, hap, hef, ht]
    · by_cases ht1 : env.token = tokenJPKI1
      · simp [CheckCard, hnr, hc, hap, hef, ht, ht1, tokenJPKI1, tokenJPKI2]
      · simp [CheckCard, hnr, hc, hap, hef, ht, ht1]
  · intro ht1
    have hne : env.token ≠ tokenJPKI2 := by
      rw [ht1]
      decide
    simp [CheckCard, hnr, hc, hap, hef, hne, ht1, tokenJPKI1, tokenJPKI2]
  · intro h2 h1
    simp [CheckCard, hnr, hc, hap, hef, h2, h1]

/-- Witness for C8: the legacy token produces the legacy-card error. -/
theorem checkCard_token_trichotomy_witness :
    (CheckCard envLegacy).1 = some Err.wrongCardLegacy :=
  (checkCard_token_trichotomy envLegacy rfl rfl rfl rfl).2.1 rfl
